import Mathlib

/-!
Shallow embedding of `helix-term/src/ui/completion.rs`: the completion popup
controller of the helix editor.  Texts are `String`s, buffer positions are
character offsets (`Nat`), and a buffer transaction is the list of its changes
(`from`, `to`, optional replacement text), applied simultaneously against the
original document (changes sorted by position).
-/

namespace Helix

/-- One change of a transaction: replace the character range
`[start, stop)` with `insert` (`none` means pure deletion). -/
structure Change where
  start : Nat
  stop : Nat
  insert : Option String
  deriving DecidableEq, Repr

/-- `helix_core::Transaction`, reduced to its ordered change list. -/
abbrev Transaction := List Change

/-- Apply one change to a text: splice `insert` over `[start, stop)`. -/
def applyChange (c : Change) (text : String) : String :=
  text.take c.start ++ c.insert.getD "" ++ text.drop c.stop

/-- Apply a transaction: its changes are given in ascending position order
against the original document, so applying them right-to-left realises the
simultaneous semantics. -/
def applyTransaction (text : String) (tx : Transaction) : String :=
  tx.foldr applyChange text

/-- Length of a change's inserted text. -/
def insLen (c : Change) : Nat := (c.insert.getD "").length

/-- Map a position through one change (positions at or inside the replaced
range move to the end of the inserted text, as `doc.apply` maps the
selection). -/
def mapPos (c : Change) (pos : Nat) : Nat :=
  if pos < c.start then pos
  else if pos ≤ c.stop then c.start + insLen c
  else pos + insLen c - (c.stop - c.start)

/-- Map a position through a transaction (changes ascending, mapped
right-to-left like `applyTransaction`). -/
def txMapPos (tx : Transaction) (pos : Nat) : Nat :=
  tx.foldr mapPos pos

/-- Document state visible to the completion controller: the rope text and
the primary selection's cursor (a character offset). -/
structure DocState where
  text : String
  cursor : Nat
  deriving DecidableEq, Repr

/-- `doc.apply(&tx, view.id)`: new text, cursor mapped through the changes. -/
def docApply (d : DocState) (tx : Transaction) : DocState :=
  ⟨applyTransaction d.text tx, txMapPos tx d.cursor⟩

/-- `lsp::Position`. -/
structure Position where
  line : Nat
  character : Nat
  deriving DecidableEq, Repr

/-- `lsp::Range` (`start`, `end`). -/
structure LspRange where
  start : Position
  stop : Position
  deriving DecidableEq, Repr

/-- `lsp::TextEdit`. -/
structure TextEdit where
  range : LspRange
  newText : String
  deriving DecidableEq, Repr

/-- `lsp::CompletionTextEdit`: a plain edit, or the unsupported
replace-with-separate-insert-range variant. -/
inductive CompletionTextEdit where
  | Edit (range : LspRange) (newText : String)
  | InsertAndReplace (newText : String) (insert : LspRange) (replace : LspRange)
  deriving DecidableEq, Repr

/-- `lsp::MarkupKind`. -/
inductive MarkupKind where
  | PlainText
  | Markdown
  deriving DecidableEq, Repr

/-- `lsp::MarkupContent`. -/
structure MarkupContent where
  kind : MarkupKind
  value : String
  deriving DecidableEq, Repr

/-- `lsp::Documentation`. -/
inductive Documentation where
  | String (contents : String)
  | MarkupContent (content : MarkupContent)
  deriving DecidableEq, Repr

/-- `lsp::CompletionItemKind` (the ~24 categories). -/
inductive CompletionItemKind where
  | Text | Method | Function | Constructor | Field | Variable | Class
  | Interface | Module | Property | Unit | Value | Enum | Keyword | Snippet
  | Color | File | Reference | Folder | EnumMember | Constant | Struct
  | Event | Operator | TypeParameter
  deriving DecidableEq, Repr

/-- `lsp::CompletionItem`, restricted to the fields this code reads
(`sort_text` is carried because the LSP item has it, though the code below
never consults it). -/
structure CompletionItem where
  label : String
  filterText : Option String := none
  sortText : Option String := none
  kind : Option CompletionItemKind := none
  textEdit : Option CompletionTextEdit := none
  insertText : Option String := none
  additionalTextEdits : Option (List TextEdit) := none
  documentation : Option Documentation := none
  detail : Option String := none
  deriving DecidableEq, Repr

/-- `menu::Item::sort_text` for `CompletionItem`:
`self.filter_text.as_ref().unwrap_or(&self.label)`. -/
def sort_text (item : CompletionItem) : String :=
  item.filterText.getD item.label

/-- `menu::Item::filter_text` for `CompletionItem`:
`self.filter_text.as_ref().unwrap_or(&self.label)`. -/
def filter_text (item : CompletionItem) : String :=
  item.filterText.getD item.label

/-- `menu::Item::label` for `CompletionItem`. -/
def item_label (item : CompletionItem) : String :=
  item.label

/-- The `kind` column of `menu::Item::row`: fixed lookup from the item kind
to a short tag, empty when the kind is absent. -/
def kind_tag : Option CompletionItemKind → String
  | some .Text => "text"
  | some .Method => "method"
  | some .Function => "function"
  | some .Constructor => "constructor"
  | some .Field => "field"
  | some .Variable => "variable"
  | some .Class => "class"
  | some .Interface => "interface"
  | some .Module => "module"
  | some .Property => "property"
  | some .Unit => "unit"
  | some .Value => "value"
  | some .Enum => "enum"
  | some .Keyword => "keyword"
  | some .Snippet => "snippet"
  | some .Color => "color"
  | some .File => "file"
  | some .Reference => "reference"
  | some .Folder => "folder"
  | some .EnumMember => "enum_member"
  | some .Constant => "constant"
  | some .Struct => "struct"
  | some .Event => "event"
  | some .Operator => "operator"
  | some .TypeParameter => "type_param"
  | none => ""

/-- Modelled from the spec: `util::generate_transaction_from_edits`
(helix-lsp, not under src/).  Per §4.2 it transcodes each edit's range from
the external encoding into native buffer offsets and replaces that range
with the edit's replacement text; the edits are taken in list order.  The
transcoding is the `transcode` parameter (offset encoding applied to an
LSP range yielding native `[start, stop)` offsets). -/
def generate_transaction_from_edits (_text : String) (edits : List TextEdit)
    (transcode : LspRange → Nat × Nat) : Transaction :=
  edits.map fun e => ⟨(transcode e.range).1, (transcode e.range).2, some e.newText⟩

/-- `item_to_transaction` (completion.rs, lines 88-117): an `edit` on the
item wins outright; the `InsertAndReplace` variant is fatal
(`unimplemented!`, modelled as `Except.error`); with no edit, insert
`insert_text` (or, absent that, `label`) at the cursor as a zero-width
replacement. -/
def item_to_transaction (text : String) (cursor : Nat) (item : CompletionItem)
    (transcode : LspRange → Nat × Nat) : Except String Transaction :=
  match item.textEdit with
  | some (.Edit range newText) =>
      .ok (generate_transaction_from_edits text [⟨range, newText⟩] transcode)
  | some (.InsertAndReplace ..) =>
      .error "completion: insert_and_replace"
  | none =>
      let text' := item.insertText.getD item.label
      .ok [⟨cursor, cursor, some text'⟩]

/-- `ui::PromptEvent`. -/
inductive PromptEvent where
  | Abort
  | Update
  | Validate
  deriving DecidableEq, Repr

/-- Result of one menu-callback invocation: the document afterwards and the
transactions applied to it, in application order. -/
structure Applied where
  doc : DocState
  applied : List Transaction
  deriving DecidableEq, Repr

/-- The single-change removal transaction `(trigger_offset, cursor, None)`
(completion.rs, lines 134-137 and 157-160). -/
def removal_tx (trigger_offset cursor : Nat) : Transaction :=
  [⟨trigger_offset, cursor, none⟩]

/-- The `if trigger_offset < cursor` block shared by the Update and Validate
arms: delete `[trigger_offset, cursor)` when text was entered since the
trigger, otherwise leave the document alone.  Returns the document and the
removal transactions applied (empty or a singleton). -/
def apply_removal (trigger_offset : Nat) (d : DocState) : DocState × List Transaction :=
  if trigger_offset < d.cursor then
    (docApply d (removal_tx trigger_offset d.cursor), [removal_tx trigger_offset d.cursor])
  else (d, [])

/-- The menu callback (completion.rs, lines 119-179): `match event` over
Abort / Update / Validate.  Update and Validate first retract text typed
since `trigger_offset`, then apply the item's transaction (computed against
the current, post-removal document); Validate additionally applies the
item's non-empty `additional_text_edits` as one further transaction.  The
`unimplemented!` panic inside `item_to_transaction` is modelled as
`Except.error`. -/
def handle_event (trigger_offset : Nat) (transcode : LspRange → Nat × Nat)
    (item : CompletionItem) (d : DocState) : PromptEvent → Except String Applied
  | .Abort => .ok ⟨d, []⟩
  | .Update =>
      let d1 := (apply_removal trigger_offset d).1
      let removed := (apply_removal trigger_offset d).2
      match item_to_transaction d1.text d1.cursor item transcode with
      | .error e => .error e
      | .ok tx => .ok ⟨docApply d1 tx, removed ++ [tx]⟩
  | .Validate =>
      let d1 := (apply_removal trigger_offset d).1
      let removed := (apply_removal trigger_offset d).2
      match item_to_transaction d1.text d1.cursor item transcode with
      | .error e => .error e
      | .ok tx =>
          let d2 := docApply d1 tx
          match item.additionalTextEdits with
          | some edits =>
              if edits.isEmpty then .ok ⟨d2, removed ++ [tx]⟩
              else
                let tx2 := generate_transaction_from_edits d2.text edits transcode
                .ok ⟨docApply d2 tx2, removed ++ [tx, tx2]⟩
          | none => .ok ⟨d2, removed ++ [tx]⟩

/-- What `recompute_filter` asks of the menu: score against a query
fragment, or clear it (which makes `is_empty` true and closes the popup). -/
inductive MenuOp where
  | score (query : String)
  | clear
  deriving DecidableEq, Repr

/-- `Completion::recompute_filter` (completion.rs, lines 194-223): read the
cursor; if `start_offset <= cursor`, score the menu with the fragment
`text[start_offset..cursor]`, else clear the menu. -/
def recompute_filter (start_offset : Nat) (d : DocState) : MenuOp :=
  if start_offset ≤ d.cursor then
    MenuOp.score ((d.text.take d.cursor).drop start_offset)
  else
    MenuOp.clear

/-- Optional-returning prefix strip, as `str::strip_prefix`. -/
def stripPfx (p s : String) : Option String :=
  if p.isPrefixOf s then some (s.drop p.length) else none

/-- The language identifier used to tag the code fence (completion.rs,
lines 273-276): the document scope with a `source.` prefix stripped, empty
when the scope is absent or has no such prefix. -/
def language_id (scope : Option String) : String :=
  ((scope.bind (stripPfx "source.")).getD "")

/-- The markdown document composed for the documentation panel
(completion.rs, lines 283-329): any present documentation (plain string or
markup of either kind) yields a code fence tagged with the language whose
body is `detail` (or empty), followed by the documentation contents;
absent documentation with a present detail yields only the fence; with
neither, no panel is drawn (`none`). -/
def markdown_output (language : String) (detail : Option String) :
    Option Documentation → Option String
  | some (.String contents) =>
      some ("```" ++ language ++ "\n" ++ detail.getD "" ++ "\n```\n" ++ contents)
  | some (.MarkupContent ⟨.PlainText, contents⟩) =>
      some ("```" ++ language ++ "\n" ++ detail.getD "" ++ "\n```\n" ++ contents)
  | some (.MarkupContent ⟨.Markdown, contents⟩) =>
      some ("```" ++ language ++ "\n" ++ detail.getD "" ++ "\n```\n" ++ contents)
  | none =>
      if detail.isSome then
        some ("```" ++ language ++ "\n" ++ detail.getD "" ++ "\n```")
      else none

/-- `helix_view::graphics::Rect` (u16 fields, modelled as `Nat`;
the source's `saturating_sub` is `Nat` subtraction). -/
structure Rect where
  x : Nat
  y : Nat
  width : Nat
  height : Nat
  deriving DecidableEq, Repr

/-- Modelled from the spec: `Markdown::required_size` is not under src/;
per §4.4 the beside-panel is "shrunk to the displayable document's natural
required size if smaller", so the required size is the document's natural
size capped at the offered viewport. -/
def mdRequiredSize (natural viewport : Nat × Nat) : Option (Nat × Nat) :=
  some (min natural.1 viewport.1, min natural.2 viewport.2)

/-- The documentation-panel rectangle computed by `render` (completion.rs,
lines 331-361).  `area` is the render area, `(popup_x, popup_y)` the menu's
relative position, `popup_width` its width, `natural` the markdown
document's natural size, `cursor_pos` the cursor's row relative to the
view, and `tree_height` is `cx.editor.tree.area().height`.  Wide leftover
width (`> 30`) places the panel beside the menu sized by
`required_size`; otherwise the panel is stacked: full width, height
`min 15 (area.height / 2)`, anchored at the top when the bottom placement
would hide the cursor row and at the bottom (2 rows reserved for
statusline and commandline) otherwise. -/
def doc_popup_area (area : Rect) (popup_x popup_y popup_width : Nat)
    (natural : Nat × Nat) (cursor_pos tree_height : Nat) : Rect :=
  let width := area.width - popup_x - popup_width
  if width > 30 then
    let height := area.height - popup_y
    let x := popup_x + popup_width
    let y := popup_y
    match mdRequiredSize natural (width, height) with
    | some (relWidth, relHeight) => ⟨x, y, relWidth, relHeight⟩
    | none => ⟨x, y, width, height⟩
  else
    let half := area.height / 2
    let height := min 15 half
    let y :=
      if cursor_pos + area.y ≥ tree_height - height - 2 then 0
      else area.height - height - 2
    ⟨0, y, area.width, height⟩

/-! Concrete inputs used by the witnesses. -/

/-- A concrete transcoder: an LSP range on line 0 maps to the character
offsets of its endpoints. -/
def tc0 : LspRange → Nat × Nat :=
  fun r => (r.start.character, r.stop.character)

/-- A concrete LSP range `[1, 4)` on line 0. -/
def r0 : LspRange := ⟨⟨0, 1⟩, ⟨0, 4⟩⟩

/-! ## Theorems -/

/-- C9: the abort event performs no document mutation: for every document
state, `handle_event` on `Abort` returns the document unchanged and an
empty list of applied transactions. -/
theorem abort_no_mutation (trigger_offset : Nat) (transcode : LspRange → Nat × Nat)
    (item : CompletionItem) (d : DocState) :
    handle_event trigger_offset transcode item d .Abort = .ok ⟨d, []⟩ := rfl

/-- C2: on every re-filter, a cursor strictly before `start_offset` clears
the menu (the session goes Empty, whatever the menu held); otherwise the
ranking collaborator is asked to score exactly the fragment
`text[start_offset..cursor]`. -/
theorem recompute_filter_anchor (start_offset : Nat) (d : DocState) :
    (d.cursor < start_offset → recompute_filter start_offset d = MenuOp.clear) ∧
    (start_offset ≤ d.cursor →
      recompute_filter start_offset d
        = MenuOp.score ((d.text.take d.cursor).drop start_offset)) := by
  constructor
  · intro h
    rw [recompute_filter, if_neg (by omega)]
  · intro h
    rw [recompute_filter, if_pos h]

/-- Witness for C2 at concrete inputs: cursor 2 before anchor 3 clears;
anchor 2 with cursor 5 scores the fragment `"cde"` of `"abcdef"`. -/
theorem recompute_filter_anchor_witness :
    recompute_filter 3 ⟨"abcdef", 2⟩ = MenuOp.clear ∧
    recompute_filter 2 ⟨"abcdef", 5⟩ = MenuOp.score "cde" :=
  ⟨(recompute_filter_anchor 3 ⟨"abcdef", 2⟩).1 (by decide),
   (recompute_filter_anchor 2 ⟨"abcdef", 5⟩).2 (by decide)⟩

/-- The candidate refuting C6: its label, filter key and sort key are
pairwise distinct strings. -/
def c6_item : CompletionItem :=
  { label := "lbl", filterText := some "flt", sortText := some "srt" }

/-- C6 counterexample: on a candidate whose LSP `sort_text` field is
present (`"srt"`), the sort key the menu exposes is not that field's
value (it is the filter key `"flt"`). -/
theorem sort_text_not_sort_key :
    sort_text c6_item ≠ c6_item.sortText.getD c6_item.label := by decide

/-- C6 amended: the sort key exposed to the ranking collaborator is the
candidate's filter key string when present and the label when absent; the
LSP sort_text field is never consulted. -/
theorem sort_text_uses_filter_key (item : CompletionItem) :
    sort_text item = item.filterText.getD item.label ∧
    ∀ s, sort_text { item with sortText := s } = sort_text item :=
  ⟨rfl, fun _ => rfl⟩

/-- C10: whenever the selected candidate's documentation is present (plain
string or markup of either kind), the composed panel document begins with
a code fence tagged with the language identifier whose body is the detail
text when present and empty when absent. -/
theorem markdown_fence_first (language : String) (detail : Option String)
    (docu : Documentation) :
    ∃ rest, markdown_output language detail (some docu)
      = some (("```" ++ language ++ "\n" ++ detail.getD "" ++ "\n```") ++ rest) := by
  have key : ∀ contents : String,
      "```" ++ language ++ "\n" ++ detail.getD "" ++ "\n```\n" ++ contents
        = ("```" ++ language ++ "\n" ++ detail.getD "" ++ "\n```") ++ ("\n" ++ contents) := by
    intro contents
    rw [← String.append_assoc _ "\n" contents,
      String.append_assoc ("```" ++ language ++ "\n" ++ detail.getD "") "\n```" "\n"]
    rfl
  cases docu with
  | String contents =>
      exact ⟨"\n" ++ contents, by rw [markdown_output, key]⟩
  | MarkupContent mc =>
      rcases mc with ⟨kind, value⟩
      cases kind
      · exact ⟨"\n" ++ value, by rw [markdown_output, key]⟩
      · exact ⟨"\n" ++ value, by rw [markdown_output, key]⟩

/-- C3: the candidate's `edit` has exclusive precedence: with an `Edit`
present, the synthesized transaction replaces the edit's (transcoded)
range with its replacement text and is unchanged by any `insert_text`;
with no edit, the transaction inserts `insert_text` — or `label` when
that too is absent — at the cursor as a zero-width replacement. -/
theorem item_to_transaction_edit_precedence (text : String) (cursor : Nat)
    (item : CompletionItem) (transcode : LspRange → Nat × Nat) :
    (∀ range newText, item.textEdit = some (.Edit range newText) →
      item_to_transaction text cursor item transcode
        = .ok [⟨(transcode range).1, (transcode range).2, some newText⟩] ∧
      ∀ ins, item_to_transaction text cursor { item with insertText := ins } transcode
        = item_to_transaction text cursor item transcode) ∧
    (item.textEdit = none →
      item_to_transaction text cursor item transcode
        = .ok [⟨cursor, cursor, some (item.insertText.getD item.label)⟩] ∧
      (item.insertText = none →
        item_to_transaction text cursor item transcode
          = .ok [⟨cursor, cursor, some item.label⟩])) := by
  constructor
  · intro range newText h
    refine ⟨?_, fun ins => ?_⟩ <;>
      simp [item_to_transaction, h, generate_transaction_from_edits]
  · intro h
    refine ⟨?_, fun hins => ?_⟩ <;>
      simp [item_to_transaction, h, *]

/-- A candidate carrying both an `Edit` and an `insert_text`. -/
def c3_item : CompletionItem :=
  { label := "lbl", textEdit := some (.Edit r0 "new"), insertText := some "ignored" }

/-- A candidate with neither edit nor `insert_text`. -/
def c3_item_bare : CompletionItem :=
  { label := "lbl" }

/-- Witness for C3: on `c3_item` the edit's range `[1, 4)` is replaced with
`"new"` (the `insert_text` is ignored), and on the bare candidate the
label is inserted at the cursor. -/
theorem item_to_transaction_edit_precedence_witness :
    item_to_transaction "hello" 5 c3_item tc0 = .ok [⟨1, 4, some "new"⟩] ∧
    item_to_transaction "hello" 5 c3_item_bare tc0 = .ok [⟨5, 5, some "lbl"⟩] :=
  ⟨((item_to_transaction_edit_precedence "hello" 5 c3_item tc0).1 r0 "new" rfl).1,
   ((item_to_transaction_edit_precedence "hello" 5 c3_item_bare tc0).2 rfl).2 rfl⟩

/-- C5: a replace-with-separate-insert-range edit is fatal for that
candidate: the synthesizer surfaces a hard failure (never a downgraded
plain-insert transaction), and both the accept and the preview paths of
the event handler abort with that failure. -/
theorem insert_and_replace_fatal (text : String) (cursor trigger_offset : Nat)
    (transcode : LspRange → Nat × Nat) (item : CompletionItem) (d : DocState)
    (newText : String) (ins rep : LspRange)
    (h : item.textEdit = some (.InsertAndReplace newText ins rep)) :
    item_to_transaction text cursor item transcode
      = .error "completion: insert_and_replace" ∧
    handle_event trigger_offset transcode item d .Validate
      = .error "completion: insert_and_replace" ∧
    handle_event trigger_offset transcode item d .Update
      = .error "completion: insert_and_replace" := by
  refine ⟨?_, ?_, ?_⟩ <;> simp [item_to_transaction, handle_event, h]

/-- A candidate carrying the unsupported `InsertAndReplace` edit shape. -/
def c5_item : CompletionItem :=
  { label := "lbl", insertText := some "fallback",
    textEdit := some (.InsertAndReplace "new" r0 r0) }

/-- Witness for C5: accepting `c5_item` fails hard rather than inserting
its fallback text. -/
theorem insert_and_replace_fatal_witness :
    handle_event 2 tc0 c5_item ⟨"hello", 4⟩ .Validate
      = .error "completion: insert_and_replace" :=
  (insert_and_replace_fatal "hello" 4 2 tc0 c5_item ⟨"hello", 4⟩ "new" r0 r0 rfl).2.1

/-- C1: on both preview (Update) and accept (Validate), when
`trigger_offset < cursor` the handler first applies the removal
transaction deleting `[trigger_offset, cursor)` and then the candidate's
transaction, which is synthesized against the post-removal document (the
document `htx` is stated on); when `trigger_offset = cursor` no removal is
applied, only the insertion. -/
theorem removal_before_insertion
    (trigger_offset : Nat) (transcode : LspRange → Nat × Nat)
    (item : CompletionItem) (d : DocState) (tx : Transaction)
    (htx : item_to_transaction (apply_removal trigger_offset d).1.text
            (apply_removal trigger_offset d).1.cursor item transcode = .ok tx) :
    (trigger_offset < d.cursor →
      (apply_removal trigger_offset d).1
          = docApply d (removal_tx trigger_offset d.cursor) ∧
      handle_event trigger_offset transcode item d .Update
          = .ok ⟨docApply (docApply d (removal_tx trigger_offset d.cursor)) tx,
                 [removal_tx trigger_offset d.cursor, tx]⟩ ∧
      ∃ r, handle_event trigger_offset transcode item d .Validate = .ok r ∧
        ∃ rest, r.applied = removal_tx trigger_offset d.cursor :: tx :: rest) ∧
    (trigger_offset = d.cursor →
      (apply_removal trigger_offset d).1 = d ∧
      handle_event trigger_offset transcode item d .Update
          = .ok ⟨docApply d tx, [tx]⟩ ∧
      ∃ r, handle_event trigger_offset transcode item d .Validate = .ok r ∧
        ∃ rest, r.applied = tx :: rest) := by
  constructor
  · intro h
    have hr : apply_removal trigger_offset d
        = (docApply d (removal_tx trigger_offset d.cursor),
           [removal_tx trigger_offset d.cursor]) := by
      rw [apply_removal, if_pos h]
    have htx' : item_to_transaction
        (docApply d (removal_tx trigger_offset d.cursor)).text
        (docApply d (removal_tx trigger_offset d.cursor)).cursor item transcode
        = .ok tx := by
      rw [hr] at htx; exact htx
    refine ⟨by rw [hr], ?_, ?_⟩
    · simp [handle_event, hr, htx']
    · cases hA : item.additionalTextEdits with
      | none =>
          simp only [handle_event, hr, htx', hA]
          exact ⟨_, rfl, [], rfl⟩
      | some edits =>
          cases edits with
          | nil =>
              simp only [handle_event, hr, htx', hA, List.isEmpty_nil, if_true]
              exact ⟨_, rfl, [], rfl⟩
          | cons e es =>
              simp only [handle_event, hr, htx', hA, List.isEmpty_cons, if_false,
                Bool.false_eq_true]
              exact ⟨_, rfl, _, rfl⟩
  · intro h
    have hr : apply_removal trigger_offset d = (d, []) := by
      rw [apply_removal, if_neg (by omega)]
    have htx' : item_to_transaction d.text d.cursor item transcode = .ok tx := by
      rw [hr] at htx; exact htx
    refine ⟨by rw [hr], ?_, ?_⟩
    · simp [handle_event, hr, htx']
    · cases hA : item.additionalTextEdits with
      | none =>
          simp only [handle_event, hr, htx', hA]
          exact ⟨_, rfl, [], rfl⟩
      | some edits =>
          cases edits with
          | nil =>
              simp only [handle_event, hr, htx', hA, List.isEmpty_nil, if_true]
              exact ⟨_, rfl, [], rfl⟩
          | cons e es =>
              simp only [handle_event, hr, htx', hA, List.isEmpty_cons, if_false,
                Bool.false_eq_true]
              exact ⟨_, rfl, _, rfl⟩

/-- A plain candidate (no edit, no `insert_text`): inserts its label. -/
def c1_item : CompletionItem := { label := "foo" }

/-- Witness for C1 at concrete inputs.  With trigger 2 and cursor 4 on
`"abcdef"`, Update first deletes `[2, 4)` (leaving `"abef"`, cursor 2) and
then inserts `"foo"` there; with trigger = cursor = 4 on `"abcd"` only the
insertion happens. -/
theorem removal_before_insertion_witness :
    handle_event 2 tc0 c1_item ⟨"abcdef", 4⟩ .Update
      = .ok ⟨⟨"abfooef", 5⟩, [[⟨2, 4, none⟩], [⟨2, 2, some "foo"⟩]]⟩ ∧
    handle_event 4 tc0 c1_item ⟨"abcd", 4⟩ .Update
      = .ok ⟨⟨"abcdfoo", 7⟩, [[⟨4, 4, some "foo"⟩]]⟩ :=
  ⟨((removal_before_insertion 2 tc0 c1_item ⟨"abcdef", 4⟩
      [⟨2, 2, some "foo"⟩] rfl).1 (by decide)).2.1,
   ((removal_before_insertion 4 tc0 c1_item ⟨"abcd", 4⟩
      [⟨4, 4, some "foo"⟩] rfl).2 rfl).2.1⟩

/-- C4: `additional_text_edits` are applied only at acceptance: the Update
result is unchanged by any value of the field, while the Validate result
applies them strictly after the primary edit (the applied list ends with
the additional-edits transaction) and strictly in list order (its changes
are the edits' changes, in order), computed against the document after the
primary edit; an empty or absent list yields no extra transaction. -/
theorem additional_edits_only_on_accept
    (trigger_offset : Nat) (transcode : LspRange → Nat × Nat)
    (item : CompletionItem) (d : DocState) :
    (∀ x, handle_event trigger_offset transcode
        { item with additionalTextEdits := x } d .Update
        = handle_event trigger_offset transcode item d .Update) ∧
    ∀ tx, item_to_transaction (apply_removal trigger_offset d).1.text
            (apply_removal trigger_offset d).1.cursor item transcode = .ok tx →
      ((item.additionalTextEdits = none ∨ item.additionalTextEdits = some []) →
        handle_event trigger_offset transcode item d .Validate
          = .ok ⟨docApply (apply_removal trigger_offset d).1 tx,
                 (apply_removal trigger_offset d).2 ++ [tx]⟩) ∧
      ∀ edits, item.additionalTextEdits = some edits → edits ≠ [] →
        handle_event trigger_offset transcode item d .Validate
          = .ok ⟨docApply (docApply (apply_removal trigger_offset d).1 tx)
                   (generate_transaction_from_edits
                     (docApply (apply_removal trigger_offset d).1 tx).text edits transcode),
                 (apply_removal trigger_offset d).2
                   ++ [tx, generate_transaction_from_edits
                         (docApply (apply_removal trigger_offset d).1 tx).text
                         edits transcode]⟩ ∧
        generate_transaction_from_edits
            (docApply (apply_removal trigger_offset d).1 tx).text edits transcode
          = edits.map fun e =>
              ⟨(transcode e.range).1, (transcode e.range).2, some e.newText⟩ := by
    refine ⟨fun x => rfl, fun tx htx => ⟨?_, ?_⟩⟩
    · rintro (hA | hA) <;> simp [handle_event, htx, hA]
    · rintro edits hA hne
      refine ⟨?_, rfl⟩
      cases edits with
      | nil => exact absurd rfl hne
      | cons e es =>
          simp only [handle_event, htx, hA, List.isEmpty_cons, if_false,
            Bool.false_eq_true]

/-- A candidate whose acceptance also performs two additional edits (as an
auto-import insertion would). -/
def c4_item : CompletionItem :=
  { label := "foo",
    additionalTextEdits := some [⟨⟨⟨0, 0⟩, ⟨0, 0⟩⟩, "A"⟩, ⟨⟨⟨0, 9⟩, ⟨0, 9⟩⟩, "B"⟩] }

/-- Witness for C4 at concrete inputs: accepting `c4_item` at
trigger = cursor = 4 on `"abcd"` first inserts the label (primary edit),
then applies one extra transaction holding both additional edits in list
order; previewing it applies no extra transaction. -/
theorem additional_edits_only_on_accept_witness :
    handle_event 4 tc0 c4_item ⟨"abcd", 4⟩ .Validate
      = .ok ⟨⟨"AabcdfooB", 8⟩,
             [[⟨4, 4, some "foo"⟩],
              [⟨0, 0, some "A"⟩, ⟨9, 9, some "B"⟩]]⟩ ∧
    handle_event 4 tc0 { c4_item with additionalTextEdits := none } ⟨"abcd", 4⟩ .Update
      = handle_event 4 tc0 c4_item ⟨"abcd", 4⟩ .Update := by
  constructor
  · exact (((additional_edits_only_on_accept 4 tc0 c4_item ⟨"abcd", 4⟩).2
      [⟨4, 4, some "foo"⟩] rfl).2
      [⟨⟨⟨0, 0⟩, ⟨0, 0⟩⟩, "A"⟩, ⟨⟨⟨0, 9⟩, ⟨0, 9⟩⟩, "B"⟩] rfl (by decide)).1
  · exact (additional_edits_only_on_accept 4 tc0 c4_item ⟨"abcd", 4⟩).1 none

/-- C7: with strictly more than 30 leftover columns beside the menu, the
documentation panel is placed beside it — anchored at
`(menu.x + menu.width, menu.y)`, its width and height the document's
natural size capped at the leftover width and at
`viewport.height - menu.y` — while at exactly 30 leftover columns it is
stacked (full width at x = 0) instead. -/
theorem doc_panel_beside_threshold (area : Rect) (popup_x popup_y popup_width : Nat)
    (nw nh cursor_pos tree_height : Nat) :
    (30 < area.width - popup_x - popup_width →
      doc_popup_area area popup_x popup_y popup_width (nw, nh) cursor_pos tree_height
        = ⟨popup_x + popup_width, popup_y,
           min nw (area.width - popup_x - popup_width),
           min nh (area.height - popup_y)⟩) ∧
    (area.width - popup_x - popup_width = 30 →
      ∃ y, doc_popup_area area popup_x popup_y popup_width (nw, nh) cursor_pos tree_height
        = ⟨0, y, area.width, min 15 (area.height / 2)⟩) := by
  constructor
  · intro h
    simp only [doc_popup_area, mdRequiredSize]
    rw [if_pos h]
  · intro h
    simp only [doc_popup_area, h]
    rw [if_neg (by omega)]
    exact ⟨_, rfl⟩

/-- Witness for C7: on an 80×24 viewport with the menu at (0, 5) and width
48, the leftover width is 32 (> 30) and a 20×10 document sits beside the
menu at (48, 5); widening the menu to 50 leaves exactly 30 columns and the
panel is stacked at x = 0, full width. -/
theorem doc_panel_beside_threshold_witness :
    doc_popup_area ⟨0, 0, 80, 24⟩ 0 5 48 (20, 10) 3 24
      = ⟨48, 5, 20, 10⟩ ∧
    ∃ y, doc_popup_area ⟨0, 0, 80, 24⟩ 0 5 50 (20, 10) 3 24
      = ⟨0, y, 80, 12⟩ :=
  ⟨(doc_panel_beside_threshold ⟨0, 0, 80, 24⟩ 0 5 48 20 10 3 24).1 (by decide),
   (doc_panel_beside_threshold ⟨0, 0, 80, 24⟩ 0 5 50 20 10 3 24).2 (by decide)⟩

/-- C8: in the stacked layout (leftover width at most 30) the panel spans
the full width with height `min 15 (viewport.height / 2)`, and — when the
render area fills the terminal vertically and the panel plus the 2
reserved status/command rows fit in it — the panel anchors at the top
(`y = 0`) exactly when the bottom placement, which starts 2 rows above the
bottom edge to keep the statusline and commandline free, would start at or
above the cursor's screen row (covering it), and anchors at that bottom
placement otherwise. -/
theorem doc_panel_stacked_anchor (area : Rect) (popup_x popup_y popup_width : Nat)
    (natural : Nat × Nat) (cursor_pos tree_height : Nat)
    (hw : area.width - popup_x - popup_width ≤ 30)
    (hh : min 15 (area.height / 2) + 2 ≤ area.height)
    (ht : tree_height = area.y + area.height) :
    doc_popup_area area popup_x popup_y popup_width natural cursor_pos tree_height
      = ⟨0,
         if area.y + (area.height - min 15 (area.height / 2) - 2) ≤ cursor_pos + area.y
         then 0
         else area.height - min 15 (area.height / 2) - 2,
         area.width, min 15 (area.height / 2)⟩ := by
  simp only [doc_popup_area]
  rw [if_neg (by omega)]
  by_cases hc : area.y + (area.height - min 15 (area.height / 2) - 2) ≤ cursor_pos + area.y
  · rw [if_pos (by subst ht; omega), if_pos hc]
  · rw [if_neg (by subst ht; omega), if_neg hc]

/-- Witness for C8 on an 80×24 terminal (render area the whole terminal,
stacked because the menu leaves no columns): height is
`min 15 12 = 12`, the bottom placement starts at row 10, so a cursor at
row 9 keeps the panel at the bottom and a cursor at row 10 pushes it to
the top. -/
theorem doc_panel_stacked_anchor_witness :
    doc_popup_area ⟨0, 0, 80, 24⟩ 0 5 80 (20, 10) 9 24 = ⟨0, 10, 80, 12⟩ ∧
    doc_popup_area ⟨0, 0, 80, 24⟩ 0 5 80 (20, 10) 10 24 = ⟨0, 0, 80, 12⟩ := by
  constructor
  · exact (doc_panel_stacked_anchor ⟨0, 0, 80, 24⟩ 0 5 80 (20, 10) 9 24
      (by decide) (by decide) (by decide)).trans (by rw [if_neg (by decide)]; decide)
  · exact (doc_panel_stacked_anchor ⟨0, 0, 80, 24⟩ 0 5 80 (20, 10) 10 24
      (by decide) (by decide) (by decide)).trans (by rw [if_pos (by decide)]; decide)

end Helix
